import Mathlib

/-!
Verification development for the stock-screener indicator engine.

The repository computes, per instrument ("ticker"), a one-row summary of a
daily OHLCV bar series, then a cross-sectional relative-strength percentile
over the whole universe.  Two computation modules exist in the source:

* `indicators.py` — the live path (`compute_indicators_in_memory`,
  `ensure_computed_table`), imported by `app.py` and `auto_compute.py`;
* `compute_engine.py` — a second, drifting implementation
  (`compute_indicators_for_ticker`, `compute_indicators`), with different
  lookback offsets and window policies.

Both are embedded below.  Modelling conventions:

* Numeric bar fields are rationals (`ℚ`): the engine coerces its inputs with
  `pd.to_numeric(errors='coerce')`, and we model well-formed numeric input,
  so no NaN arises inside a series; `Option ℚ` is the explicit Missing
  marker produced by the engine's guards (pandas NaN / Python None).
* A series is a `List Bar` already sorted ascending by date and grouped by
  ticker, exactly as `read_raw_prices` + `groupby` deliver it to the
  transform.
* For `compute_engine.pct_change`, which divides numpy float64 values with
  no zero guard, a small sum type `NpVal` models the IEEE-754 special
  values (`inf`, `-inf`, `nan`) that numpy produces, with exact rational
  arithmetic in the finite case.
* Floating-point rounding is out of scope throughout: arithmetic is exact.
-/

/-- One daily OHLCV bar for one instrument (`raw_prices` row after numeric
coercion).  `date` is an abstract day index; `opn` is the `open` column. -/
structure Bar where
  date : ℕ
  opn : ℚ
  high : ℚ
  low : ℚ
  close : ℚ
  volume : ℚ
deriving DecidableEq

instance : Inhabited Bar := ⟨⟨0, 0, 0, 0, 0, 0⟩⟩

/-- Arithmetic mean of a list of rationals; `0` on the empty list (never used
on an empty list by the engine, every call site guards `n ≥ 1`). -/
def listMean (xs : List ℚ) : ℚ := xs.sum / (xs.length : ℚ)

/-- The trailing window of width `w`: the last `min w xs.length` elements.
Models both `Series.rolling(window=w)`'s final window and `.iloc[-w:]`. -/
def lastWindow (w : ℕ) (xs : List ℚ) : List ℚ := xs.drop (xs.length - w)

/-- Maximum of a list of rationals, `0` on the empty list (call sites are
guarded to nonempty lists).  Models `Series.max()`. -/
def listMaxD : List ℚ → ℚ
  | [] => 0
  | x :: t => t.foldl max x

/-- Minimum of a list of rationals, `0` on the empty list.  Models
`Series.min()`. -/
def listMinD : List ℚ → ℚ
  | [] => 0
  | x :: t => t.foldl min x

/-- The smoothing factor `2/(span+1)` of `ewm(span=..)`. -/
def alphaOf (span : ℕ) : ℚ := 2 / ((span : ℚ) + 1)

/-- Final value of `Series.ewm(span=span, adjust=False).mean()`:
`y₀ = x₀`, `yᵢ = (1-α)·yᵢ₋₁ + α·xᵢ`; `none` on an empty series. -/
def emaLast (span : ℕ) : List ℚ → Option ℚ
  | [] => none
  | x :: xs =>
      some (xs.foldl (fun prev y => (1 - alphaOf span) * prev + alphaOf span * y) x)

/-- Final value of `Series.rolling(window=w, min_periods=1).mean()`: the
partial-window mean over the last `min w n` values; `none` on an empty
series. -/
def smaLast (w : ℕ) : List ℚ → Option ℚ
  | [] => none
  | x :: xs => some (listMean (lastWindow w (x :: xs)))

/-- Value of `Series.rolling(window=w, min_periods=1).mean()` at row index
`i` (0-based): the partial-window mean of rows `max(0, i-w+1) .. i`. -/
def smaAt (w : ℕ) (xs : List ℚ) (i : ℕ) : ℚ := listMean (lastWindow w (xs.take (i + 1)))

/-- True Range of bar `b` given the previous bar `prev`
(`indicators.py` lines 85-88): `max(|high-low|, |high-prevClose|, |low-prevClose|)`. -/
def trOf (prev b : Bar) : ℚ :=
  max |b.high - b.low| (max |b.high - prev.close| |b.low - prev.close|)

/-- True Range values of all bars after the first, threading the previous
close. -/
def trAux (prev : Bar) : List Bar → List ℚ
  | [] => []
  | b :: bs => trOf prev b :: trAux b bs

/-- The `tr` column of `indicators.py` lines 84-88: the first bar has no
previous close (`shift(1)` gives NaN, and `concat(..).max(axis=1)` skips
NaN), so its True Range is `|high - low|`. -/
def trList : List Bar → List ℚ
  | [] => []
  | b :: bs => |b.high - b.low| :: trAux b bs

/-- `pct_change_from_offset` of `indicators.py` lines 103-110: with
`idx = n-1-offset`, Missing when `idx < 0` (i.e. `n < offset+1`) or when the
close at `idx` is zero; otherwise `(close[n-1]/close[idx] - 1) * 100`. -/
def pctChangeFromOffset (closes : List ℚ) (k : ℕ) : Option ℚ :=
  if k + 1 ≤ closes.length then
    if closes.getD (closes.length - 1 - k) 0 = 0 then none
    else some ((closes.getD (closes.length - 1) 0 / closes.getD (closes.length - 1 - k) 0 - 1) * 100)
  else none

/-- The guard pattern of `indicators.py` lines 153-155: `close / sma` when
the SMA is defined and nonzero, otherwise Missing. -/
def closeDivSma (c : ℚ) (m : Option ℚ) : Option ℚ :=
  match m with
  | none => none
  | some v => if v = 0 then none else some (c / v)

/-- One row of the `computed` table (`indicators.py` lines 130-158).
`Option ℚ` fields are NaN-able in the source; the two flag fields are
coerced to `bool` with `False` on NaN (lines 151-152), hence plain `Bool`.
`m1_change_pct` is the source's `1m_change_pct` column (identifiers cannot
start with a digit), `d252_high`/`d252_low` are `252_days_high`/`252_days_low`,
and `close21_div_sma126_21` is `close21_days_ago_div_sma126_21_days_ago`. -/
structure Row where
  ticker : String
  date : ℕ
  close : ℚ
  volume : ℚ
  previous_volume : Option ℚ
  daily_change_pct : Option ℚ
  daily_change_rupees : Option ℚ
  atr : Option ℚ
  weekly_change_pct : Option ℚ
  m1_change_pct : Option ℚ
  m3_change_pct : Option ℚ
  m6_change_pct : Option ℚ
  sma7_sma63_ratio : Option ℚ
  d252_high : Option ℚ
  d252_low : Option ℚ
  ema10 : Option ℚ
  ema20 : Option ℚ
  ema50 : Option ℚ
  ema200 : Option ℚ
  volume_avg20 : Option ℚ
  volume_spike_1p5x_avg20 : Bool
  today_volume_gt_yesterday : Bool
  close_div_sma21 : Option ℚ
  close_div_sma63 : Option ℚ
  close_div_sma126 : Option ℚ
  close21_div_sma126_21 : Option ℚ
  relative_strength : Option ℚ := none
deriving DecidableEq

/-- The per-ticker body of `compute_indicators_in_memory`
(`indicators.py` lines 60-160): `none` for an empty series (`n < 1` →
`continue`), otherwise one `Row`.  Offsets per lines 136-142: daily 1,
weekly 5, 1m 22, 3m 66, 6m 132.  The 252-bar high/low (lines 119-127)
require the full window; the SMAs/ATR/volume average use the partial-window
policy (`min_periods=1`).  `relative_strength` is attached later by
`addRelativeStrength`, as in the source (lines 165-176). -/
def computeRow (ticker : String) : List Bar → Option Row
  | [] => none
  | b :: tl =>
    let g := b :: tl
    let n := g.length
    let closes := g.map Bar.close
    let vols := g.map Bar.volume
    let lastC := closes.getD (n - 1) 0
    let lastV := vols.getD (n - 1) 0
    let prevVol : Option ℚ := if 2 ≤ n then some (vols.getD (n - 2) 0) else none
    some {
      ticker := ticker
      date := (g.getD (n - 1) default).date
      close := lastC
      volume := lastV
      previous_volume := prevVol
      daily_change_pct := pctChangeFromOffset closes 1
      daily_change_rupees := if 2 ≤ n then some (lastC - closes.getD (n - 2) 0) else none
      atr := smaLast 14 (trList g)
      weekly_change_pct := pctChangeFromOffset closes 5
      m1_change_pct := pctChangeFromOffset closes 22
      m3_change_pct := pctChangeFromOffset closes 66
      m6_change_pct := pctChangeFromOffset closes 132
      sma7_sma63_ratio :=
        match smaLast 7 closes, smaLast 63 closes with
        | some a, some m => if m = 0 then none else some (a / m)
        | _, _ => none
      d252_high := if 252 ≤ n then some (listMaxD (lastWindow 252 (g.map Bar.high))) else none
      d252_low := if 252 ≤ n then some (listMinD (lastWindow 252 (g.map Bar.low))) else none
      ema10 := emaLast 10 closes
      ema20 := emaLast 20 closes
      ema50 := emaLast 50 closes
      ema200 := emaLast 200 closes
      volume_avg20 := smaLast 20 vols
      volume_spike_1p5x_avg20 :=
        match smaLast 20 vols with
        | some m => decide (lastV > 3 / 2 * m)
        | none => false
      today_volume_gt_yesterday :=
        match prevVol with
        | some pv => decide (lastV > pv)
        | none => false
      close_div_sma21 := closeDivSma lastC (smaLast 21 closes)
      close_div_sma63 := closeDivSma lastC (smaLast 63 closes)
      close_div_sma126 := closeDivSma lastC (smaLast 126 closes)
      close21_div_sma126_21 :=
        if 22 ≤ n then
          if smaAt 126 closes (n - 22) = 0 then none
          else some (closes.getD (n - 22) 0 / smaAt 126 closes (n - 22))
        else none
    }

/-- The basis column chosen by the relative-strength fallback chain
(`indicators.py` lines 166-174). -/
inductive BasisCol
  | b6
  | b3
  | b1
  | bnone
deriving DecidableEq

/-- Projection of a row onto a basis column. -/
def basisGet : BasisCol → Row → Option ℚ
  | BasisCol.b6 => Row.m6_change_pct
  | BasisCol.b3 => Row.m3_change_pct
  | BasisCol.b1 => Row.m1_change_pct
  | BasisCol.bnone => fun _ => none

/-- `indicators.py` lines 167-173: try `6m_change_pct`, then `3m_change_pct`,
then `1m_change_pct`; take the first with at least one non-Missing value
(`.notna().any()`); otherwise no basis. -/
def chooseBasis (rows : List Row) : BasisCol :=
  if rows.any (fun r => r.m6_change_pct.isSome) then BasisCol.b6
  else if rows.any (fun r => r.m3_change_pct.isSome) then BasisCol.b3
  else if rows.any (fun r => r.m1_change_pct.isSome) then BasisCol.b1
  else BasisCol.bnone

/-- `Series.rank(pct=True) * 100` for a present value `x` of the column:
average-rank tie-breaking (`count_lt + (count_eq + 1)/2`), divided by the
number of non-Missing values of the column, times 100. -/
def rankPct (col : List (Option ℚ)) (x : ℚ) : ℚ :=
  (((col.filterMap id).filter (fun y => decide (y < x))).length
      + ((((col.filterMap id).filter (fun y => decide (y = x))).length : ℚ) + 1) / 2)
    / (((col.filterMap id).length : ℚ)) * 100

/-- `indicators.py` lines 165-176: attach the `relative_strength` column.
A row whose basis value is Missing gets a Missing rank (`rank` leaves NaN
at NaN); if no basis column has any value, every rank is Missing. -/
def addRelativeStrength (rows : List Row) : List Row :=
  let c := chooseBasis rows
  let col := rows.map (basisGet c)
  rows.map (fun r => { r with relative_strength := (basisGet c r).map (rankPct col) })

/-- `compute_indicators_in_memory` over a universe of ticker-keyed series
(`indicators.py` lines 52-196): per-ticker rows (empty series skipped),
then the relative-strength column. -/
def computeTable (univ : List (String × List Bar)) : List Row :=
  addRelativeStrength (univ.filterMap (fun p => computeRow p.1 p.2))

/-- The aggregation loop of `compute_indicators_in_memory`
(`indicators.py` lines 57-68 and 160) with Python exception flow made
explicit.  The loop body is a parameter because Python calls it
dynamically: `Except.error` models an exception raised while transforming
one instrument, `Except.ok none` models the `n < 1` `continue`.  The loop
itself contains no `try`/`except`, so an error at any group aborts the
whole traversal. -/
def aggregateExc (body : String × List Bar → Except String (Option Row)) :
    List (String × List Bar) → Except String (List Row)
  | [] => Except.ok []
  | p :: ps =>
    match body p with
    | Except.error e => Except.error e
    | Except.ok none => aggregateExc body ps
    | Except.ok (some r) =>
      match aggregateExc body ps with
      | Except.error e => Except.error e
      | Except.ok rest => Except.ok (r :: rest)

/-- The loop body that the source actually runs: the pure transform, which
raises nothing on numeric input (coercion uses `errors='coerce'`). -/
def realBody (p : String × List Bar) : Except String (Option Row) :=
  Except.ok (computeRow p.1 p.2)

/-- The rows the aggregation loop collects when nothing raises. -/
def aggregateRows (univ : List (String × List Bar)) : List Row :=
  univ.filterMap (fun p => computeRow p.1 p.2)

/-- A loop body modelling an exception (`ValueError`) raised while
transforming the instrument named `A`; every other instrument is
transformed normally. -/
def badBody (p : String × List Bar) : Except String (Option Row) :=
  if p.1 = "A" then Except.error "ValueError" else Except.ok (computeRow p.1 p.2)

/-! ## Orchestrator model (`sync_master_to_working`, `ensure_computed_table`) -/

/-- The file-system state the orchestrator touches: the master store
(`none` = file absent) with its mtime, the working store copy (bars plus
mtime), and the published `computed` table. -/
structure Store where
  masterBars : Option (List (String × List Bar))
  masterTime : ℕ
  working : Option (List (String × List Bar) × ℕ)
  published : Option (List Row)
deriving DecidableEq

/-- `sync_master_to_working` (`indicators.py` lines 21-37): fatal error when
the master store is absent; copy master to working (stamping the copy with
the current time `now`) when the working store is absent or older than the
master; otherwise leave the working store alone. -/
def syncMasterToWorking (s : Store) (now : ℕ) : Except String Store :=
  match s.masterBars with
  | none => Except.error "Master DB not found"
  | some mb =>
    match s.working with
    | none => Except.ok { s with working := some (mb, now) }
    | some (_, wt) =>
      if wt < s.masterTime then Except.ok { s with working := some (mb, now) }
      else Except.ok s

/-- `ensure_computed_table` (`indicators.py` lines 209-221): sync, read the
raw bars from the working store, compute the table, publish it (replacing
the previous `computed` table wholesale). -/
def ensureComputedTable (s : Store) (now : ℕ) : Except String Store :=
  match syncMasterToWorking s now with
  | Except.error e => Except.error e
  | Except.ok s1 =>
    match s1.working with
    | none => Except.error "StoreUnavailable"
    | some (bars, _) => Except.ok { s1 with published := some (computeTable bars) }

/-! ## Embedding of the drifting second implementation, `compute_engine.py` -/

/-- A numpy float64 value: exact rational in the finite case, plus the
IEEE-754 special values that numpy arithmetic produces without raising. -/
inductive NpVal
  | fin (q : ℚ)
  | pinf
  | ninf
  | nan
deriving DecidableEq

/-- numpy float64 division: division by zero yields a signed infinity (or
`nan` for `0/0`) — it never raises. -/
def NpVal.div : NpVal → NpVal → NpVal
  | NpVal.fin a, NpVal.fin b =>
    if b = 0 then (if 0 < a then NpVal.pinf else if a < 0 then NpVal.ninf else NpVal.nan)
    else NpVal.fin (a / b)
  | NpVal.pinf, NpVal.fin b => if 0 ≤ b then NpVal.pinf else NpVal.ninf
  | NpVal.ninf, NpVal.fin b => if 0 ≤ b then NpVal.ninf else NpVal.pinf
  | NpVal.fin _, NpVal.pinf => NpVal.fin 0
  | NpVal.fin _, NpVal.ninf => NpVal.fin 0
  | _, _ => NpVal.nan

/-- numpy subtraction of a rational constant. -/
def NpVal.subC : NpVal → ℚ → NpVal
  | NpVal.fin a, c => NpVal.fin (a - c)
  | NpVal.pinf, _ => NpVal.pinf
  | NpVal.ninf, _ => NpVal.ninf
  | NpVal.nan, _ => NpVal.nan

/-- numpy multiplication by a rational constant. -/
def NpVal.mulC : NpVal → ℚ → NpVal
  | NpVal.fin a, c => NpVal.fin (a * c)
  | NpVal.pinf, c => if 0 < c then NpVal.pinf else if c < 0 then NpVal.ninf else NpVal.nan
  | NpVal.ninf, c => if 0 < c then NpVal.ninf else if c < 0 then NpVal.pinf else NpVal.nan
  | NpVal.nan, _ => NpVal.nan

/-- `pct_change` of `compute_engine.py` lines 44-47:
`(close[-1] / close[-1-k] - 1) * 100` when `n > k`, else `None`.  There is
no zero-denominator guard, so a zero historical close produces an infinite
(or nan) value rather than Missing. -/
def ce_pct_change (closes : List ℚ) (k : ℕ) : Option NpVal :=
  if k < closes.length then
    some ((((NpVal.fin (closes.getD (closes.length - 1) 0)).div
        (NpVal.fin (closes.getD (closes.length - 1 - k) 0))).subC 1).mulC 100)
  else none

/-- One result row of `compute_indicators_for_ticker`
(`compute_engine.py` lines 30-137).  The `atr_14`, `rsi_14` and `adx_14`
fields are omitted: they are delegated to the external `ta` library (not
part of this repository) and no claim depends on their values. -/
structure CERow where
  ticker : String
  date : ℕ
  close_price : ℚ
  volume_today : ℚ
  volume_prev_day : ℚ
  daily_change_pct : Option NpVal
  daily_change_abs : ℚ
  weekly_change_pct : Option NpVal
  m1_change_pct : Option NpVal
  m3_change_pct : Option NpVal
  m6_change_pct : Option NpVal
  sma_7 : ℚ
  sma_21 : ℚ
  sma_63 : ℚ
  sma_65 : ℚ
  sma_126 : ℚ
  ema_10 : ℚ
  ema_20 : ℚ
  ema_50 : ℚ
  ema_200 : ℚ
  sma7_sma65_ratio : Option ℚ
  close_over_sma21 : Option ℚ
  close_over_sma63 : Option ℚ
  close_over_sma126 : Option ℚ
  close_price_21_days_ago : Option ℚ
  sma63_21_days_ago : Option ℚ
  close21_over_sma63_21 : Option ℚ
  avg_volume_20 : ℚ
  high_252 : ℚ
  low_252 : ℚ
  current_to_252_high : Option ℚ
  current_to_252_low : Option ℚ
  rs_percentile : Option ℚ := none
deriving DecidableEq

/-- `compute_indicators_for_ticker` (`compute_engine.py` lines 25-137):
`None` for any series with fewer than 2 bars (line 33); offsets per lines
49-54: daily 1, weekly 5, 1m 21, 3m 63, 6m 126; 252-bar high/low fall back
to the whole available history below 252 bars (lines 94-95). -/
def ce_compute_for_ticker (ticker : String) (g : List Bar) : Option CERow :=
  if g.length < 2 then none
  else
    let n := g.length
    let closes := g.map Bar.close
    let vols := g.map Bar.volume
    let lastC := closes.getD (n - 1) 0
    let sma7 := listMean (lastWindow 7 closes)
    let sma21 := listMean (lastWindow 21 closes)
    let sma63 := listMean (lastWindow 63 closes)
    let sma65 := listMean (lastWindow 65 closes)
    let sma126 := listMean (lastWindow 126 closes)
    let high252 := listMaxD (if 252 ≤ n then lastWindow 252 (g.map Bar.high) else g.map Bar.high)
    let low252 := listMinD (if 252 ≤ n then lastWindow 252 (g.map Bar.low) else g.map Bar.low)
    some {
      ticker := ticker
      date := (g.getD (n - 1) default).date
      close_price := lastC
      volume_today := vols.getD (n - 1) 0
      volume_prev_day := vols.getD (n - 2) 0
      daily_change_pct := ce_pct_change closes 1
      daily_change_abs := lastC - closes.getD (n - 2) 0
      weekly_change_pct := ce_pct_change closes 5
      m1_change_pct := ce_pct_change closes 21
      m3_change_pct := ce_pct_change closes 63
      m6_change_pct := ce_pct_change closes 126
      sma_7 := sma7
      sma_21 := sma21
      sma_63 := sma63
      sma_65 := sma65
      sma_126 := sma126
      ema_10 := (emaLast 10 closes).getD 0
      ema_20 := (emaLast 20 closes).getD 0
      ema_50 := (emaLast 50 closes).getD 0
      ema_200 := (emaLast 200 closes).getD 0
      sma7_sma65_ratio := if sma65 = 0 then none else some (sma7 / sma65)
      close_over_sma21 := if sma21 = 0 then none else some (lastC / sma21)
      close_over_sma63 := if sma63 = 0 then none else some (lastC / sma63)
      close_over_sma126 := if sma126 = 0 then none else some (lastC / sma126)
      close_price_21_days_ago := if 21 ≤ n then some (closes.getD (n - 21) 0) else none
      sma63_21_days_ago := if 21 ≤ n then some (smaAt 63 closes (n - 21)) else none
      close21_over_sma63_21 :=
        if 21 ≤ n then
          if smaAt 63 closes (n - 21) = 0 then none
          else some (closes.getD (n - 21) 0 / smaAt 63 closes (n - 21))
        else none
      avg_volume_20 := listMean (lastWindow 20 vols)
      high_252 := high252
      low_252 := low252
      current_to_252_high := if high252 = 0 then none else some (lastC / high252)
      current_to_252_low := if low252 = 0 then none else some (lastC / low252)
    }

/-- `isna` over an optional numpy value: `None` and `NaN` are na; infinities
are not. -/
def npIsNa : Option NpVal → Bool
  | none => true
  | some NpVal.nan => true
  | some _ => false

/-- Strict order on non-nan numpy values used by `Series.rank`. -/
def npLt : NpVal → NpVal → Bool
  | NpVal.fin a, NpVal.fin b => decide (a < b)
  | NpVal.fin _, NpVal.pinf => true
  | NpVal.ninf, NpVal.fin _ => true
  | NpVal.ninf, NpVal.pinf => true
  | _, _ => false

/-- `Series.rank(pct=True) * 100` over a column of numpy values: na entries
are excluded, ties get the average rank, and the divisor is the count of
non-na entries. -/
def ceRankPct (col : List (Option NpVal)) (x : NpVal) : ℚ :=
  let present := col.filterMap (fun v => if npIsNa v then none else v)
  (((present.filter (fun y => npLt y x)).length : ℚ)
      + (((present.filter (fun y => decide (y = x))).length : ℚ) + 1) / 2)
    / ((present.length : ℚ)) * 100

/-- The relative-strength step of `compute_indicators`
(`compute_engine.py` lines 149-153): if the `6m_change_pct` column has any
non-na value rank it, otherwise rank the `3m_change_pct` column — there is
no further fallback. -/
def ce_addRank (rows : List CERow) : List CERow :=
  let useCol (get : CERow → Option NpVal) : List CERow :=
    let col := rows.map get
    rows.map (fun r =>
      { r with rs_percentile :=
          match get r with
          | none => none
          | some v => if v = NpVal.nan then none else some (ceRankPct col v) })
  if rows.any (fun r => !npIsNa r.m6_change_pct) then useCol (fun r => r.m6_change_pct)
  else useCol (fun r => r.m3_change_pct)

/-- `compute_indicators` (`compute_engine.py` lines 140-156): per-ticker
rows (series with fewer than 2 bars skipped), then the rank column; an
empty row set yields an empty table. -/
def ce_compute_indicators (univ : List (String × List Bar)) : List CERow :=
  let rows := univ.filterMap (fun p => ce_compute_for_ticker p.1 p.2)
  if rows.isEmpty then [] else ce_addRank rows

/-! ## Concrete sample inputs used by counterexamples and witnesses -/

/-- A bar whose four price fields all equal `c`, with volume `v`, on day `d`. -/
def flatBar (d : ℕ) (c v : ℚ) : Bar := ⟨d, c, c, c, c, v⟩

/-- 22 bars with closes 1, 2, …, 22. -/
def s22 : List Bar := (List.range 22).map (fun i => flatBar i ((i : ℚ) + 1) 1)

/-- A 2-bar series whose first close is zero. -/
def zpair : List Bar := [flatBar 0 0 1, flatBar 1 5 1]

/-- A 3-bar series with highs 10, 12, 11 and lows 3, 4, 5. -/
def ce3 : List Bar :=
  [⟨0, 9, 10, 3, 9, 1⟩, ⟨1, 10, 12, 4, 10, 1⟩, ⟨2, 10, 11, 5, 11, 1⟩]

/-- A universe of two instruments with 30 bars each (enough history for the
1-month change of either engine, not enough for 3-month or 6-month). -/
def u30 : List (String × List Bar) :=
  [("A", List.replicate 30 (flatBar 0 1 1)), ("B", List.replicate 30 (flatBar 0 1 1))]

/-- The `compute_engine` rows of `u30`. -/
def cerows30 : List CERow := u30.filterMap (fun p => ce_compute_for_ticker p.1 p.2)

/-- 23 flat bars at close 1. -/
def uA23 : List Bar := List.replicate 23 (flatBar 0 1 1)

/-- 23 bars: 22 at close 1, then one at close 2. -/
def uB23 : List Bar := List.replicate 22 (flatBar 0 1 1) ++ [flatBar 22 2 1]

/-- `indicators.py` rows of the two-instrument universe over `uA23`/`uB23`:
the 1-month changes are `some 0` and `some 100`, the 3m/6m columns all
Missing, so the ranker's basis falls back to the 1-month column. -/
def rowsW : List Row := aggregateRows [("A", uA23), ("B", uB23)]

/-- 252 flat bars at close 7. -/
def w252 : List Bar := List.replicate 252 (flatBar 0 7 1)

/-- A one-instrument universe for the orchestrator witness. -/
def univ0 : List (String × List Bar) := [("A", [flatBar 0 2 3])]

/-- An orchestrator state with a master store, no working copy, nothing
published. -/
def store0 : Store :=
  { masterBars := some univ0, masterTime := 5, working := none, published := none }

/-- The state after one orchestrator run over `store0` at time 10. -/
def store1 : Store :=
  { masterBars := some univ0, masterTime := 5, working := some (univ0, 10),
    published := some (computeTable univ0) }

/-! ## Claims

Rational arithmetic is made kernel-computable inside this section so that
concrete counterexamples and witnesses can be settled by `decide`. -/

section ClaimSection

attribute [local semireducible] Rat.add Rat.mul Rat.sub Rat.inv Rat.ofScientific

/-- C1 (counterexample).  The claim asserts the 1-month field uses offset
21 and that the offset fields are Missing exactly when `n - 1 - k < 0`.
On the 22-bar series `s22` we have `n - 1 - 21 = 0 ≥ 0` and the claimed
value `(close[21]/close[0] - 1)*100 = (22/1 - 1)*100 = 2100`, yet the code
leaves the 1-month field Missing (it uses offset 22, `indicators.py` line
140); and on `zpair` (closes `[0, 5]`) we have `n - 1 - 1 = 0 ≥ 0`, yet the
daily field is Missing (zero-denominator guard, line 107).  Both refute the
claim as stated. -/
theorem C1_counterexample :
    (computeRow "A" s22).bind Row.m1_change_pct = none
    ∧ 21 + 1 ≤ s22.length
    ∧ (s22.map Bar.close).getD (s22.length - 1 - 21) 0 = 1
    ∧ (s22.map Bar.close).getD (s22.length - 1) 0 = 22
    ∧ (computeRow "A" zpair).bind Row.daily_change_pct = none
    ∧ 1 + 1 ≤ zpair.length := by
  refine ⟨by decide, by decide, by decide, by decide, by decide, by decide⟩

/-- C1 (amended).  In `compute_indicators_in_memory` the offset-based
percentage-change fields use trading-bar offsets 1 (daily), 5 (weekly),
22 (1-month), 66 (3-month) and 132 (6-month); for offset `k` the field is
Missing iff `n - 1 - k < 0` or `close[n-1-k] = 0`, and otherwise equals
`(close[n-1]/close[n-1-k] - 1) * 100` exactly. -/
theorem C1_amended :
    (∀ (t : String) (b : Bar) (tl : List Bar),
      (computeRow t (b :: tl)).bind Row.daily_change_pct
          = pctChangeFromOffset ((b :: tl).map Bar.close) 1
      ∧ (computeRow t (b :: tl)).bind Row.weekly_change_pct
          = pctChangeFromOffset ((b :: tl).map Bar.close) 5
      ∧ (computeRow t (b :: tl)).bind Row.m1_change_pct
          = pctChangeFromOffset ((b :: tl).map Bar.close) 22
      ∧ (computeRow t (b :: tl)).bind Row.m3_change_pct
          = pctChangeFromOffset ((b :: tl).map Bar.close) 66
      ∧ (computeRow t (b :: tl)).bind Row.m6_change_pct
          = pctChangeFromOffset ((b :: tl).map Bar.close) 132)
    ∧ (∀ (closes : List ℚ) (k : ℕ),
        (pctChangeFromOffset closes k = none ↔
          closes.length < k + 1 ∨ closes.getD (closes.length - 1 - k) 0 = 0)
        ∧ ∀ v, pctChangeFromOffset closes k = some v →
            v = (closes.getD (closes.length - 1) 0
                  / closes.getD (closes.length - 1 - k) 0 - 1) * 100) := by
  constructor
  · intro t b tl
    exact ⟨rfl, rfl, rfl, rfl, rfl⟩
  · intro closes k
    constructor
    · unfold pctChangeFromOffset
      by_cases h : k + 1 ≤ closes.length
      · rw [if_pos h]
        by_cases h0 : closes.getD (closes.length - 1 - k) 0 = 0
        · rw [if_pos h0]
          exact iff_of_true rfl (Or.inr h0)
        · rw [if_neg h0]
          simp only [reduceCtorEq, false_iff]
          push_neg
          exact ⟨by omega, h0⟩
      · rw [if_neg h]
        simp only [true_iff]
        exact Or.inl (by omega)
    · intro v hv
      unfold pctChangeFromOffset at hv
      by_cases h : k + 1 ≤ closes.length
      · rw [if_pos h] at hv
        by_cases h0 : closes.getD (closes.length - 1 - k) 0 = 0
        · rw [if_pos h0] at hv; cases hv
        · rw [if_neg h0] at hv
          exact (Option.some.inj hv).symm
      · rw [if_neg h] at hv; cases hv

/-- C1 (witness): the amended formula clause evaluated on closes `[2, 4]`
at offset 1: the field is `some 100` and `100 = (4/2 - 1) * 100`. -/
theorem C1_witness :
    pctChangeFromOffset [(2 : ℚ), 4] 1 = some 100
    ∧ (100 : ℚ) = ([(2 : ℚ), 4].getD ([(2 : ℚ), 4].length - 1) 0
        / [(2 : ℚ), 4].getD ([(2 : ℚ), 4].length - 1 - 1) 0 - 1) * 100 := by
  refine ⟨by decide, (C1_amended.2 [(2 : ℚ), 4] 1).2 100 (by decide)⟩

/-- C2 (counterexample).  The claim asserts the 252-bar high/low fields are
Missing whenever the series has fewer than 252 bars.  The
`compute_engine.py` path (lines 94-95, cited by the claim) instead falls
back to the whole available history: on the 3-bar series `ce3` it emits a
row whose `high_252` is 12 and `low_252` is 3 — numbers, not Missing. -/
theorem C2_counterexample :
    (ce_compute_for_ticker "A" ce3).map CERow.high_252 = some 12
    ∧ (ce_compute_for_ticker "A" ce3).map CERow.low_252 = some 3
    ∧ ce3.length < 252 := by
  refine ⟨by decide, by decide, by decide⟩

/-- C2 (amended).  In `compute_indicators_in_memory` (`indicators.py`
lines 119-127) the strict policy holds exactly as claimed: below 252 bars
both fields are Missing, and from 252 bars on they equal the maximum of
`high` / minimum of `low` over the trailing 252 bars.  The
`compute_engine.py` path, however, computes them over all available bars
when `n < 252` (never Missing for any series it emits a row for). -/
theorem C2_amended :
    (∀ (t : String) (b : Bar) (tl : List Bar),
      ((b :: tl).length < 252 →
        (computeRow t (b :: tl)).bind Row.d252_high = none
        ∧ (computeRow t (b :: tl)).bind Row.d252_low = none)
      ∧ (252 ≤ (b :: tl).length →
        (computeRow t (b :: tl)).bind Row.d252_high
            = some (listMaxD (lastWindow 252 ((b :: tl).map Bar.high)))
        ∧ (computeRow t (b :: tl)).bind Row.d252_low
            = some (listMinD (lastWindow 252 ((b :: tl).map Bar.low)))))
    ∧ (∀ (t : String) (g : List Bar), 2 ≤ g.length → g.length < 252 →
        (ce_compute_for_ticker t g).map CERow.high_252
            = some (listMaxD (g.map Bar.high))
        ∧ (ce_compute_for_ticker t g).map CERow.low_252
            = some (listMinD (g.map Bar.low))) := by
  constructor
  · intro t b tl
    have ehigh : (computeRow t (b :: tl)).bind Row.d252_high
        = if 252 ≤ (b :: tl).length then
            some (listMaxD (lastWindow 252 ((b :: tl).map Bar.high))) else none := rfl
    have elow : (computeRow t (b :: tl)).bind Row.d252_low
        = if 252 ≤ (b :: tl).length then
            some (listMinD (lastWindow 252 ((b :: tl).map Bar.low))) else none := rfl
    constructor
    · intro h
      rw [ehigh, elow, if_neg (by omega), if_neg (by omega)]
      exact ⟨rfl, rfl⟩
    · intro h
      rw [ehigh, elow, if_pos h, if_pos h]
      exact ⟨rfl, rfl⟩
  · intro t g h2 h252
    have hn : ¬ g.length < 2 := by omega
    have ehigh : (ce_compute_for_ticker t g).map CERow.high_252
        = if g.length < 2 then none
          else some (listMaxD (if 252 ≤ g.length then
            lastWindow 252 (g.map Bar.high) else g.map Bar.high)) := by
      unfold ce_compute_for_ticker
      by_cases hx : g.length < 2
      · rw [if_pos hx, if_pos hx]; rfl
      · rw [if_neg hx, if_neg hx]; rfl
    have elow : (ce_compute_for_ticker t g).map CERow.low_252
        = if g.length < 2 then none
          else some (listMinD (if 252 ≤ g.length then
            lastWindow 252 (g.map Bar.low) else g.map Bar.low)) := by
      unfold ce_compute_for_ticker
      by_cases hx : g.length < 2
      · rw [if_pos hx, if_pos hx]; rfl
      · rw [if_neg hx, if_neg hx]; rfl
    rw [ehigh, elow, if_neg hn, if_neg hn, if_neg (by omega), if_neg (by omega)]
    exact ⟨rfl, rfl⟩

/-- Dropping to a window at least as long as the list keeps the whole
list. -/
theorem lastWindow_of_length_le (w : ℕ) (xs : List ℚ) (h : xs.length ≤ w) :
    lastWindow w xs = xs := by
  unfold lastWindow
  rw [Nat.sub_eq_zero_of_le h, List.drop_zero]

/-- The running maximum of a constant list is that constant. -/
theorem listMaxD_replicate (n : ℕ) (x : ℚ) : listMaxD (List.replicate (n + 1) x) = x := by
  rw [List.replicate_succ]
  show (List.replicate n x).foldl max x = x
  induction n with
  | zero => rfl
  | succ k ih => rw [List.replicate_succ, List.foldl_cons, max_self]; exact ih

/-- C2 (witness): the strict branch on 252 flat bars at close 7 (the
range field present and equal to 7), the Missing branch on a 1-bar
series, and the compute_engine fallback on the 3-bar series `ce3`. -/
theorem C2_witness :
    (computeRow "A" w252).bind Row.d252_high = some 7
    ∧ (computeRow "B" [flatBar 0 1 1]).bind Row.d252_high = none
    ∧ (ce_compute_for_ticker "A" ce3).map CERow.high_252
        = some (listMaxD (ce3.map Bar.high)) := by
  refine ⟨?_, ?_, ?_⟩
  · have hlen : 252 ≤ (flatBar 0 7 1 :: List.replicate 251 (flatBar 0 7 1)).length := by
      rw [List.length_cons, List.length_replicate]
    have h1 := ((C2_amended.1 "A" (flatBar 0 7 1) (List.replicate 251 (flatBar 0 7 1))).2 hlen).1
    have hmap : (flatBar 0 7 1 :: List.replicate 251 (flatBar 0 7 1)).map Bar.high
        = List.replicate 252 (7 : ℚ) := by
      rw [List.map_cons, List.map_replicate, ← List.replicate_succ]
      rfl
    have hwin : (List.replicate 252 (7 : ℚ)).length ≤ 252 := by
      rw [List.length_replicate]
    refine h1.trans ?_
    rw [hmap, lastWindow_of_length_le 252 _ hwin, listMaxD_replicate 251 7]
  · exact ((C2_amended.1 "B" (flatBar 0 1 1) []).1 (by decide)).1
  · exact (C2_amended.2 "A" ce3 (by decide) (by decide)).1

/-- C3 (counterexample).  The claim says the ranker tries 6-month, then
3-month, then 1-month, and uses the first column with any non-Missing
value.  On the universe `u30` (two instruments, 30 bars each) the 6-month
and 3-month columns are entirely Missing while the 1-month column has
values, so by the claim both rows should receive non-Missing ranks; the
`compute_indicators` ranker of `compute_engine.py` (lines 149-153, cited
by the claim) has no 1-month fallback — it ranks the all-Missing 3-month
column and leaves every rank Missing. -/
theorem C3_counterexample :
    (ce_compute_indicators u30).map CERow.rs_percentile = [none, none]
    ∧ (ce_compute_indicators u30).map CERow.m1_change_pct
        = [some (NpVal.fin 0), some (NpVal.fin 0)]
    ∧ (ce_compute_indicators u30).map CERow.m6_change_pct = [none, none]
    ∧ (ce_compute_indicators u30).map CERow.m3_change_pct = [none, none] := by
  refine ⟨by decide, by decide, by decide, by decide⟩

/-- C3 (amended).  In `compute_indicators_in_memory` (`indicators.py`
lines 165-176) the fallback chain works exactly as claimed: the basis is
the first of 6m/3m/1m with any non-Missing value; with no basis, or with a
Missing basis value for a given row, the rank is Missing; each present
basis value is ranked with `rankPct` against the basis column.  The
`compute_engine.py` ranker, however, only tries 6m then 3m: when both are
entirely Missing every rank is Missing even if the 1m column has values. -/
theorem C3_amended :
    (∀ rows : List Row,
      (rows.any (fun r => r.m6_change_pct.isSome) = true →
          chooseBasis rows = BasisCol.b6)
      ∧ (rows.any (fun r => r.m6_change_pct.isSome) = false →
          rows.any (fun r => r.m3_change_pct.isSome) = true →
          chooseBasis rows = BasisCol.b3)
      ∧ (rows.any (fun r => r.m6_change_pct.isSome) = false →
          rows.any (fun r => r.m3_change_pct.isSome) = false →
          rows.any (fun r => r.m1_change_pct.isSome) = true →
          chooseBasis rows = BasisCol.b1)
      ∧ (rows.any (fun r => r.m6_change_pct.isSome) = false →
          rows.any (fun r => r.m3_change_pct.isSome) = false →
          rows.any (fun r => r.m1_change_pct.isSome) = false →
          chooseBasis rows = BasisCol.bnone))
    ∧ (∀ (rows : List Row) (i : ℕ),
        (addRelativeStrength rows)[i]?
          = (rows[i]?).map (fun r =>
              { r with relative_strength :=
                  ((basisGet (chooseBasis rows) r).map
                    (rankPct (rows.map (basisGet (chooseBasis rows))))) }))
    ∧ (∀ r : Row, basisGet BasisCol.bnone r = none)
    ∧ (∀ rows : List CERow,
        (∀ r ∈ rows, npIsNa r.m6_change_pct = true) →
        (∀ r ∈ rows, npIsNa r.m3_change_pct = true) →
        ∀ r ∈ ce_addRank rows, r.rs_percentile = none) := by
  refine ⟨?_, ?_, ?_, ?_⟩
  · intro rows
    refine ⟨?_, ?_, ?_, ?_⟩
    · intro h6
      unfold chooseBasis
      rw [if_pos h6]
    · intro h6 h3
      unfold chooseBasis
      rw [if_neg (by simp [h6]), if_pos h3]
    · intro h6 h3 h1
      unfold chooseBasis
      rw [if_neg (by simp [h6]), if_neg (by simp [h3]), if_pos h1]
    · intro h6 h3 h1
      unfold chooseBasis
      rw [if_neg (by simp [h6]), if_neg (by simp [h3]), if_neg (by simp [h1])]
  · intro rows i
    unfold addRelativeStrength
    rw [List.getElem?_map]
  · intro r
    rfl
  · intro rows h6 h3 r hr
    unfold ce_addRank at hr
    rw [if_neg ?hcond] at hr
    case hcond =>
      simp only [List.any_eq_true, not_exists, not_and, Bool.not_eq_true]
      intro x hx
      rw [h6 x hx]
      rfl
    simp only [List.mem_map] at hr
    obtain ⟨x, hx, hxr⟩ := hr
    have hna := h3 x hx
    subst hxr
    cases hm : x.m3_change_pct with
    | none => simp [hm]
    | some v =>
      rw [hm] at hna
      cases v with
      | nan => simp [hm]
      | fin q => exact absurd hna (by simp [npIsNa])
      | pinf => exact absurd hna (by simp [npIsNa])
      | ninf => exact absurd hna (by simp [npIsNa])

/-- C3 (witness): on the two-instrument universe behind `rowsW` the 6m and
3m columns are all Missing and the 1m column has values, so the chosen
basis is the 1-month column; and on the `compute_engine` rows of `u30`
(all-Missing 6m and 3m) every rank is Missing. -/
theorem C3_witness :
    chooseBasis rowsW = BasisCol.b1
    ∧ (addRelativeStrength rowsW)[0]?
        = (rowsW[0]?).map (fun r =>
            { r with relative_strength :=
                ((basisGet (chooseBasis rowsW) r).map
                  (rankPct (rowsW.map (basisGet (chooseBasis rowsW))))) })
    ∧ (∀ r ∈ ce_addRank cerows30, r.rs_percentile = none) := by
  refine ⟨(C3_amended.1 rowsW).2.2.1 (by decide) (by decide) (by decide),
    C3_amended.2.1 rowsW 0,
    C3_amended.2.2.2 cerows30 (by decide) (by decide)⟩

/-- C4 (counterexample).  The claim says a one-bar series still yields an
(emitted) Snapshot row and that only a zero-bar series produces no row.
`compute_indicators_for_ticker` of `compute_engine.py` (lines 32-35, cited
by the claim) returns `None` for every series with fewer than 2 bars: a
one-bar series produces no row at all. -/
theorem C4_counterexample :
    ce_compute_for_ticker "A" [flatBar 0 3 5] = none
    ∧ [flatBar 0 3 5].length ≠ 0 := by
  refine ⟨by decide, by decide⟩

/-- C4 (amended).  In `compute_indicators_in_memory` (`indicators.py`
lines 61-64) the claim holds: a one-bar series still yields a row whose
day-over-day fields (daily change in percent and rupees, weekly/1M/3M/6M
changes, previous volume) are Missing, while the EMA fields and the 20-bar
volume average are defined, seeded from the single bar; an empty series
yields no row.  The `compute_engine.py` path, however, emits no row for
any series with fewer than 2 bars. -/
theorem C4_amended :
    (∀ (t : String) (b : Bar),
      (computeRow t [b]).isSome = true
      ∧ (computeRow t [b]).bind Row.daily_change_pct = none
      ∧ (computeRow t [b]).bind Row.daily_change_rupees = none
      ∧ (computeRow t [b]).bind Row.weekly_change_pct = none
      ∧ (computeRow t [b]).bind Row.m1_change_pct = none
      ∧ (computeRow t [b]).bind Row.m3_change_pct = none
      ∧ (computeRow t [b]).bind Row.m6_change_pct = none
      ∧ (computeRow t [b]).bind Row.previous_volume = none
      ∧ (computeRow t [b]).bind Row.ema10 = some b.close
      ∧ (computeRow t [b]).bind Row.ema20 = some b.close
      ∧ (computeRow t [b]).bind Row.ema50 = some b.close
      ∧ (computeRow t [b]).bind Row.ema200 = some b.close
      ∧ (computeRow t [b]).bind Row.volume_avg20 = some b.volume)
    ∧ (∀ (t : String) (g : List Bar), g.length < 2 → ce_compute_for_ticker t g = none)
    ∧ (∀ t : String, computeRow t [] = none) := by
  refine ⟨?_, ?_, fun t => rfl⟩
  · intro t b
    refine ⟨rfl, rfl, rfl, rfl, rfl, rfl, rfl, rfl, rfl, rfl, rfl, rfl, ?_⟩
    show some (listMean (lastWindow 20 [b.volume])) = some b.volume
    have : lastWindow 20 [b.volume] = [b.volume] := rfl
    rw [this]
    show some (([b.volume].sum) / (([b.volume].length : ℕ) : ℚ)) = some b.volume
    norm_num
  · intro t g h
    unfold ce_compute_for_ticker
    rw [if_pos h]

/-- C4 (witness): the amended statement evaluated on the one-bar series
`[flatBar 0 3 5]` (close 3, volume 5). -/
theorem C4_witness :
    (computeRow "A" [flatBar 0 3 5]).bind Row.daily_change_pct = none
    ∧ (computeRow "A" [flatBar 0 3 5]).bind Row.ema10 = some 3
    ∧ (computeRow "A" [flatBar 0 3 5]).bind Row.volume_avg20 = some 5
    ∧ ce_compute_for_ticker "B" [flatBar 0 3 5] = none := by
  have h := C4_amended.1 "A" (flatBar 0 3 5)
  exact ⟨h.2.1, h.2.2.2.2.2.2.2.2.1, h.2.2.2.2.2.2.2.2.2.2.2.2,
    C4_amended.2.1 "B" [flatBar 0 3 5] (by decide)⟩

/-- C5 (counterexample).  The claim says an exception raised while
transforming a single instrument is caught inside the aggregator, that
instrument alone being excluded while the rest of the batch survives.  The
aggregation loop (`indicators.py` lines 57-68, `compute_engine.py` lines
140-146) contains no `try`/`except`: with a body that raises on instrument
`A`, the whole aggregation evaluates to the propagated exception — no rows
at all are produced for instrument `B`, and the caller sees the error. -/
theorem C5_counterexample :
    aggregateExc badBody [("A", [flatBar 0 3 5]), ("B", [flatBar 0 3 5])]
        = Except.error "ValueError"
    ∧ computeRow "B" [flatBar 0 3 5] ≠ none := by
  refine ⟨rfl, by decide⟩

/-- C5 (amended).  The aggregator has no exception handler: an exception
raised while transforming one instrument propagates to the caller and
aborts the whole batch (any instruments transformed without error are
discarded too).  Separately, the transform the loop actually runs is total
on numeric input — coercion uses `errors='coerce'`, so the named
coercion-failure scenario cannot raise and is absorbed as Missing fields —
in which case the loop returns exactly the per-instrument rows. -/
theorem C5_amended :
    (∀ (body : String × List Bar → Except String (Option Row))
        (ps1 ps2 : List (String × List Bar)) (p : String × List Bar) (e : String),
      body p = Except.error e →
      (∀ q ∈ ps1, ∃ r, body q = Except.ok r) →
      aggregateExc body (ps1 ++ p :: ps2) = Except.error e)
    ∧ (∀ univ : List (String × List Bar),
        aggregateExc realBody univ = Except.ok (aggregateRows univ)) := by
  constructor
  · intro body ps1 ps2 p e hp hok
    induction ps1 with
    | nil =>
      simp only [List.nil_append]
      unfold aggregateExc
      rw [hp]
    | cons q qs ih =>
      obtain ⟨r, hr⟩ := hok q (List.mem_cons_self q qs)
      have hrest := ih (fun x hx => hok x (List.mem_cons_of_mem q hx))
      simp only [List.cons_append]
      unfold aggregateExc
      rw [hr]
      cases r with
      | none => exact hrest
      | some row => rw [hrest]
  · intro univ
    induction univ with
    | nil => rfl
    | cons p ps ih =>
      show aggregateExc realBody (p :: ps) = Except.ok (aggregateRows (p :: ps))
      unfold aggregateExc realBody aggregateRows
      cases hc : computeRow p.1 p.2 with
      | none =>
        simp only [List.filterMap_cons, hc]
        exact ih
      | some r =>
        simp only [List.filterMap_cons, hc]
        have ih2 : aggregateExc (fun p => Except.ok (computeRow p.1 p.2)) ps
            = Except.ok (aggregateRows ps) := ih
        rw [ih2]
        rfl

/-- C5 (witness): with the failing instrument `A` second in the universe,
the error propagates past the successfully transformed `B` and the batch
result is the exception; with the real (total) body, aggregation returns
the per-instrument rows. -/
theorem C5_witness :
    aggregateExc badBody [("B", [flatBar 0 3 5]), ("A", [flatBar 0 3 5])]
        = Except.error "ValueError"
    ∧ aggregateExc realBody [("B", [flatBar 0 3 5])]
        = Except.ok (aggregateRows [("B", [flatBar 0 3 5])]) := by
  constructor
  · refine C5_amended.1 badBody [("B", [flatBar 0 3 5])] []
      ("A", [flatBar 0 3 5]) "ValueError" rfl ?_
    intro q hq
    rw [List.mem_singleton] at hq
    subst hq
    exact ⟨computeRow "B" [flatBar 0 3 5], rfl⟩
  · exact C5_amended.2 [("B", [flatBar 0 3 5])]

/-- C6 (counterexample).  The claim says every ratio field with a zero
denominator yields Missing and evaluation never produces an infinite
value.  `pct_change` of `compute_engine.py` (lines 44-47, cited by the
claim) has no zero-denominator guard: on closes `[0, 5]` the daily change
is `(5/0 - 1) * 100`, which numpy evaluates to `inf` — an infinite value,
not the Missing marker. -/
theorem C6_counterexample :
    ce_pct_change [(0 : ℚ), 5] 1 = some NpVal.pinf
    ∧ some NpVal.pinf ≠ (none : Option NpVal) := by
  refine ⟨by decide, by decide⟩

set_option maxRecDepth 4000 in
/-- C6 (amended).  In `compute_indicators_in_memory` (`indicators.py`
lines 143-157) every ratio field is guarded exactly as claimed: a zero
denominator or an out-of-range offset index yields Missing, and the total
rational embedding produces no fault and no infinite value.  The
`compute_engine.py` `pct_change`, however, lacks the zero-denominator
guard: a zero historical close with a positive latest close yields
positive infinity instead of Missing. -/
theorem C6_amended :
    (∀ (t : String) (b : Bar) (tl : List Bar),
      (smaLast 63 ((b :: tl).map Bar.close) = some 0 →
        (computeRow t (b :: tl)).bind Row.sma7_sma63_ratio = none)
      ∧ (smaLast 21 ((b :: tl).map Bar.close) = some 0 →
        (computeRow t (b :: tl)).bind Row.close_div_sma21 = none)
      ∧ (smaLast 63 ((b :: tl).map Bar.close) = some 0 →
        (computeRow t (b :: tl)).bind Row.close_div_sma63 = none)
      ∧ (smaLast 126 ((b :: tl).map Bar.close) = some 0 →
        (computeRow t (b :: tl)).bind Row.close_div_sma126 = none)
      ∧ ((b :: tl).length < 22 →
        (computeRow t (b :: tl)).bind Row.close21_div_sma126_21 = none)
      ∧ (22 ≤ (b :: tl).length →
          smaAt 126 ((b :: tl).map Bar.close) ((b :: tl).length - 22) = 0 →
        (computeRow t (b :: tl)).bind Row.close21_div_sma126_21 = none))
    ∧ (∀ (closes : List ℚ) (k : ℕ),
        (closes.length < k + 1 → pctChangeFromOffset closes k = none)
        ∧ (closes.getD (closes.length - 1 - k) 0 = 0 →
            pctChangeFromOffset closes k = none))
    ∧ (∀ (closes : List ℚ) (k : ℕ),
        k < closes.length →
        closes.getD (closes.length - 1 - k) 0 = 0 →
        0 < closes.getD (closes.length - 1) 0 →
        ce_pct_change closes k = some NpVal.pinf) := by
  refine ⟨?_, ?_, ?_⟩
  · intro t b tl
    refine ⟨?_, ?_, ?_, ?_, ?_, ?_⟩
    · intro h63
      show (match smaLast 7 ((b :: tl).map Bar.close),
              smaLast 63 ((b :: tl).map Bar.close) with
            | some a, some m => if m = 0 then none else some (a / m)
            | _, _ => none) = none
      rw [h63]
      cases h7 : smaLast 7 ((b :: tl).map Bar.close) with
      | none => rfl
      | some a => simp
    · intro h21
      show closeDivSma (((b :: tl).map Bar.close).getD ((b :: tl).length - 1) 0)
          (smaLast 21 ((b :: tl).map Bar.close)) = none
      rw [h21]
      simp [closeDivSma]
    · intro h63
      show closeDivSma (((b :: tl).map Bar.close).getD ((b :: tl).length - 1) 0)
          (smaLast 63 ((b :: tl).map Bar.close)) = none
      rw [h63]
      simp [closeDivSma]
    · intro h126
      show closeDivSma (((b :: tl).map Bar.close).getD ((b :: tl).length - 1) 0)
          (smaLast 126 ((b :: tl).map Bar.close)) = none
      rw [h126]
      simp [closeDivSma]
    · intro hlen
      show (if 22 ≤ (b :: tl).length then
              if smaAt 126 ((b :: tl).map Bar.close) ((b :: tl).length - 22) = 0 then none
              else some (((b :: tl).map Bar.close).getD ((b :: tl).length - 22) 0
                / smaAt 126 ((b :: tl).map Bar.close) ((b :: tl).length - 22))
            else none) = none
      rw [if_neg (by omega)]
    · intro hlen hz
      show (if 22 ≤ (b :: tl).length then
              if smaAt 126 ((b :: tl).map Bar.close) ((b :: tl).length - 22) = 0 then none
              else some (((b :: tl).map Bar.close).getD ((b :: tl).length - 22) 0
                / smaAt 126 ((b :: tl).map Bar.close) ((b :: tl).length - 22))
            else none) = none
      rw [if_pos hlen, if_pos hz]
  · intro closes k
    constructor
    · intro h
      unfold pctChangeFromOffset
      rw [if_neg (by omega)]
    · intro hz
      unfold pctChangeFromOffset
      by_cases h : k + 1 ≤ closes.length
      · rw [if_pos h, if_pos hz]
      · rw [if_neg h]
  · intro closes k hk hz hpos
    unfold ce_pct_change
    rw [if_pos hk, hz]
    have hdiv : ∀ a : ℚ, 0 < a → (NpVal.fin a).div (NpVal.fin 0) = NpVal.pinf := by
      intro a ha
      show (if (0 : ℚ) = 0 then
              (if 0 < a then NpVal.pinf else if a < 0 then NpVal.ninf else NpVal.nan)
            else NpVal.fin (a / 0)) = NpVal.pinf
      rw [if_pos rfl, if_pos ha]
    rw [hdiv _ hpos]
    rfl

/-- C6 (witness): on the all-zero one-bar series every SMA is zero and all
guarded ratio fields are Missing; on the 22-bar all-zero series the
offset-21 ratio with a zero historical SMA is Missing; the compute_engine
`pct_change` on closes `[0, 5]` at offset 1 yields positive infinity. -/
theorem C6_witness :
    (computeRow "A" [flatBar 0 0 0]).bind Row.sma7_sma63_ratio = none
    ∧ (computeRow "A" [flatBar 0 0 0]).bind Row.close_div_sma21 = none
    ∧ (computeRow "A" [flatBar 0 0 0]).bind Row.close_div_sma63 = none
    ∧ (computeRow "A" [flatBar 0 0 0]).bind Row.close_div_sma126 = none
    ∧ (computeRow "A" [flatBar 0 0 0]).bind Row.close21_div_sma126_21 = none
    ∧ (computeRow "A" (flatBar 0 0 0 :: List.replicate 21 (flatBar 0 0 0))).bind
        Row.close21_div_sma126_21 = none
    ∧ pctChangeFromOffset ((flatBar 0 0 0 :: List.replicate 21 (flatBar 0 0 0)).map
        Bar.close) 5 = none
    ∧ ce_pct_change [(0 : ℚ), 5] 1 = some NpVal.pinf := by
  have h1 := C6_amended.1 "A" (flatBar 0 0 0) []
  refine ⟨h1.1 (by decide), h1.2.1 (by decide), h1.2.2.1 (by decide),
    h1.2.2.2.1 (by decide), h1.2.2.2.2.1 (by decide), ?_, ?_, ?_⟩
  · exact (C6_amended.1 "A" (flatBar 0 0 0) (List.replicate 21 (flatBar 0 0 0))).2.2.2.2.2
      (by decide) (by decide)
  · exact (C6_amended.2.1 _ 5).2 (by decide)
  · exact C6_amended.2.2 [(0 : ℚ), 5] 1 (by decide) (by decide) (by decide)

/-- Counting helper: enlarging the strict upper bound cannot shrink the
count of elements below it. -/
theorem length_filter_lt_mono (l : List ℚ) {a b : ℚ} (hab : a ≤ b) :
    (l.filter (fun y => decide (y < a))).length
      ≤ (l.filter (fun y => decide (y < b))).length := by
  induction l with
  | nil => simp
  | cons x xs ih =>
    simp only [List.filter_cons]
    by_cases h1 : x < a
    · rw [if_pos (by simpa using h1), if_pos (by simpa using lt_of_lt_of_le h1 hab)]
      simpa using ih
    · by_cases h2 : x < b
      · rw [if_neg (by simpa using h1), if_pos (by simpa using h2)]
        simp only [List.length_cons]
        omega
      · rw [if_neg (by simpa using h1), if_neg (by simpa using h2)]
        exact ih
/-- Counting helper: everything below or equal to `a` is below any `b > a`. -/
theorem length_filter_lt_eq_le (l : List ℚ) {a b : ℚ} (hab : a < b) :
    (l.filter (fun y => decide (y < a))).length
        + (l.filter (fun y => decide (y = a))).length
      ≤ (l.filter (fun y => decide (y < b))).length := by
  induction l with
  | nil => simp
  | cons x xs ih =>
    simp only [List.filter_cons]
    by_cases h1 : x < a
    · have h2 : ¬ x = a := ne_of_lt h1
      have h3 : x < b := lt_trans h1 hab
      rw [if_pos (by simpa using h1), if_neg (by simpa using h2), if_pos (by simpa using h3)]
      simp only [List.length_cons]
      omega
    · by_cases h2 : x = a
      · have h3 : x < b := h2 ▸ hab
        rw [if_neg (by simpa using h1), if_pos (by simpa using h2), if_pos (by simpa using h3)]
        simp only [List.length_cons]
        omega
      · by_cases h3 : x < b
        · rw [if_neg (by simpa using h1), if_neg (by simpa using h2),
            if_pos (by simpa using h3)]
          simp only [List.length_cons]
          omega
        · rw [if_neg (by simpa using h1), if_neg (by simpa using h2),
            if_neg (by simpa using h3)]
          exact ih

/-- `rankPct` is monotone non-decreasing in the ranked value, over any
column in which the value actually occurs. -/
theorem rankPct_mono (col : List (Option ℚ)) {a b : ℚ}
    (ha : a ∈ col.filterMap id) (hab : a ≤ b) :
    rankPct col a ≤ rankPct col b := by
  rcases eq_or_lt_of_le hab with rfl | hlt
  · exact le_refl _
  have hN : 0 < (((col.filterMap id).length : ℚ)) := by
    have hpos : 0 < (col.filterMap id).length :=
      List.length_pos.mpr (List.ne_nil_of_mem ha)
    exact_mod_cast hpos
  unfold rankPct
  apply mul_le_mul_of_nonneg_right _ (by norm_num)
  rw [div_le_div_iff_of_pos_right hN]
  have key := length_filter_lt_eq_le (col.filterMap id) hlt
  have hEb : (0 : ℚ)
      ≤ (((col.filterMap id).filter (fun y => decide (y = b))).length : ℚ) := by
    positivity
  have key2 : (((col.filterMap id).filter (fun y => decide (y < a))).length : ℚ)
        + (((col.filterMap id).filter (fun y => decide (y = a))).length : ℚ)
      ≤ (((col.filterMap id).filter (fun y => decide (y < b))).length : ℚ) := by
    exact_mod_cast key
  have hEa : (0 : ℚ)
      ≤ (((col.filterMap id).filter (fun y => decide (y = a))).length : ℚ) := by
    positivity
  linarith

/-- C7.  The relative-strength percentile of `compute_indicators_in_memory`
(`indicators.py` lines 167-172) ranks each present basis value with
average-rank tie-breaking — `rankPct` is literally
`(count_lt + (count_eq + 1)/2) / count * 100` over the non-Missing basis
values — so for any two rows with present basis values the percentile is
monotone non-decreasing in the basis value, and rows with equal basis
values receive exactly equal percentiles. -/
theorem C7_rank_monotone :
    ∀ (rows : List Row) (i j : ℕ) (a b : ℚ),
      (rows.map (basisGet (chooseBasis rows)))[i]? = some (some a) →
      (rows.map (basisGet (chooseBasis rows)))[j]? = some (some b) →
      a ≤ b →
      ((addRelativeStrength rows)[i]?).bind Row.relative_strength
          = some (rankPct (rows.map (basisGet (chooseBasis rows))) a)
      ∧ ((addRelativeStrength rows)[j]?).bind Row.relative_strength
          = some (rankPct (rows.map (basisGet (chooseBasis rows))) b)
      ∧ rankPct (rows.map (basisGet (chooseBasis rows))) a
          ≤ rankPct (rows.map (basisGet (chooseBasis rows))) b
      ∧ (a = b →
          rankPct (rows.map (basisGet (chooseBasis rows))) a
            = rankPct (rows.map (basisGet (chooseBasis rows))) b) := by
  intro rows i j a b hi hj hab
  rw [List.getElem?_map] at hi hj
  obtain ⟨ri, hri, hbi⟩ := Option.map_eq_some'.mp hi
  obtain ⟨rj, hrj, hbj⟩ := Option.map_eq_some'.mp hj
  have hmem : a ∈ (rows.map (basisGet (chooseBasis rows))).filterMap id := by
    apply List.mem_filterMap.mpr
    refine ⟨some a, ?_, rfl⟩
    have : (rows.map (basisGet (chooseBasis rows)))[i]? = some (some a) := by
      rw [List.getElem?_map, hri, Option.map_some', hbi]
    exact List.getElem?_mem this
  refine ⟨?_, ?_, rankPct_mono _ hmem hab, fun h => by rw [h]⟩
  · unfold addRelativeStrength
    rw [List.getElem?_map, hri, Option.map_some', Option.some_bind]
    show (basisGet (chooseBasis rows) ri).map
        (rankPct (rows.map (basisGet (chooseBasis rows))))
      = some (rankPct (rows.map (basisGet (chooseBasis rows))) a)
    rw [hbi, Option.map_some']
  · unfold addRelativeStrength
    rw [List.getElem?_map, hrj, Option.map_some', Option.some_bind]
    show (basisGet (chooseBasis rows) rj).map
        (rankPct (rows.map (basisGet (chooseBasis rows))))
      = some (rankPct (rows.map (basisGet (chooseBasis rows))) b)
    rw [hbj, Option.map_some']

/-- C7 (witness): on the two-row universe behind `rowsW` (1-month basis
values 0 and 100) the percentiles are 50 and 100, in order. -/
theorem C7_witness :
    ((addRelativeStrength rowsW)[0]?).bind Row.relative_strength = some 50
    ∧ ((addRelativeStrength rowsW)[1]?).bind Row.relative_strength = some 100 := by
  have h := C7_rank_monotone rowsW 0 1 0 100 (by decide) (by decide) (by norm_num)
  exact ⟨h.1.trans (by decide), h.2.1.trans (by decide)⟩

/-- True-Range positions after the first bar pair each bar with its
predecessor's close. -/
theorem trAux_getD (l : List Bar) : ∀ (prev : Bar) (i : ℕ), i < l.length →
    (trAux prev l).getD i 0 = trOf ((prev :: l).getD i default) (l.getD i default) := by
  induction l with
  | nil =>
    intro prev i h
    simp at h
  | cons b bs ih =>
    intro prev i h
    cases i with
    | zero => rfl
    | succ k =>
      have hk : k < bs.length := by
        simpa using h
      show (trAux b bs).getD k 0 = trOf ((b :: bs).getD k default) (bs.getD k default)
      exact ih b k hk

/-- C8.  In `compute_indicators_in_memory` (`indicators.py` lines 83-89)
the ATR field of every non-empty series is the partial-window mean of the
trailing (up to) 14 True-Range values — in particular it is never Missing,
so the partial-window policy is the single policy applied to every
instrument of a run — where the True Range of the first bar (no previous
close) is `|high - low|` and the True Range of every later bar is
`max(|high-low|, |high-prevClose|, |low-prevClose|)`. -/
theorem C8_atr :
    ∀ (t : String) (b : Bar) (tl : List Bar),
      (computeRow t (b :: tl)).bind Row.atr
          = some (listMean (lastWindow 14 (trList (b :: tl))))
      ∧ ((computeRow t (b :: tl)).bind Row.atr).isSome = true
      ∧ (trList (b :: tl)).getD 0 0 = |b.high - b.low|
      ∧ (∀ i : ℕ, i + 1 < (b :: tl).length →
          (trList (b :: tl)).getD (i + 1) 0
            = trOf ((b :: tl).getD i default) ((b :: tl).getD (i + 1) default)) := by
  intro t b tl
  refine ⟨rfl, rfl, rfl, ?_⟩
  intro i hi
  show (trAux b tl).getD i 0 = trOf ((b :: tl).getD i default) (tl.getD i default)
  exact trAux_getD tl b i (by simpa using hi)

/-- C8 (witness): on the 2-bar series with (high, low, close) equal to
(10, 2, 9) then (12, 8, 11): TR₀ = |10-2| = 8, TR₁ = max(4, 3, 1) = 4,
ATR = mean(8, 4) = 6. -/
theorem C8_witness :
    (computeRow "A" [⟨0, 1, 10, 2, 9, 5⟩, ⟨1, 9, 12, 8, 11, 6⟩]).bind Row.atr = some 6
    ∧ (trList [⟨0, 1, 10, 2, 9, 5⟩, ⟨1, 9, 12, 8, 11, 6⟩]).getD 0 0 = 8
    ∧ (trList [⟨0, 1, 10, 2, 9, 5⟩, ⟨1, 9, 12, 8, 11, 6⟩]).getD 1 0
        = trOf ⟨0, 1, 10, 2, 9, 5⟩ ⟨1, 9, 12, 8, 11, 6⟩
    ∧ trOf ⟨0, 1, 10, 2, 9, 5⟩ ⟨1, 9, 12, 8, 11, 6⟩ = 4 := by
  have h := C8_atr "A" ⟨0, 1, 10, 2, 9, 5⟩ [⟨1, 9, 12, 8, 11, 6⟩]
  refine ⟨h.1.trans (by decide), h.2.2.1.trans (by decide),
    h.2.2.2 0 (by decide), by decide⟩

/-- C9.  The orchestrator `ensure_computed_table` is deterministic and
idempotent: with the master store unchanged, running it twice (at
non-decreasing wall-clock times) publishes identical tables — the first
run either copies the master bars into the working store or leaves a
newer working store alone, and the second run recomputes the same
`computeTable` of the same bars. -/
theorem C9_idempotent :
    ∀ (s s1 s2 : Store) (n1 n2 : ℕ),
      s.masterTime ≤ n1 →
      ensureComputedTable s n1 = Except.ok s1 →
      ensureComputedTable s1 n2 = Except.ok s2 →
      s1.published = s2.published := by
  intro s s1 s2 n1 n2 hle h1 h2
  obtain ⟨mb, mt, w, pub⟩ := s
  simp only at hle
  cases mb with
  | none =>
    exact absurd h1 (by simp [ensureComputedTable, syncMasterToWorking])
  | some mbv =>
    cases w with
    | none =>
      simp only [ensureComputedTable, syncMasterToWorking] at h1
      have hs1 := Except.ok.inj h1
      subst hs1
      simp only [ensureComputedTable, syncMasterToWorking] at h2
      rw [if_neg (Nat.not_lt.mpr hle)] at h2
      have hs2 := Except.ok.inj h2
      subst hs2
      rfl
    | some wpair =>
      obtain ⟨wb, wt⟩ := wpair
      simp only [ensureComputedTable, syncMasterToWorking] at h1
      by_cases hwt : wt < mt
      · rw [if_pos hwt] at h1
        have hs1 := Except.ok.inj h1
        subst hs1
        simp only [ensureComputedTable, syncMasterToWorking] at h2
        rw [if_neg (Nat.not_lt.mpr hle)] at h2
        have hs2 := Except.ok.inj h2
        subst hs2
        rfl
      · rw [if_neg hwt] at h1
        have hs1 := Except.ok.inj h1
        subst hs1
        simp only [ensureComputedTable, syncMasterToWorking] at h2
        rw [if_neg hwt] at h2
        have hs2 := Except.ok.inj h2
        subst hs2
        rfl

/-- C9 (witness): starting from `store0` (master present, no working copy)
and running at times 10 then 20, both runs publish the same table. -/
theorem C9_witness :
    ∃ s1 s2 : Store,
      ensureComputedTable store0 10 = Except.ok s1
      ∧ ensureComputedTable s1 20 = Except.ok s2
      ∧ s1.published = s2.published := by
  refine ⟨store1, store1, rfl, rfl, ?_⟩
  exact C9_idempotent store0 store1 store1 10 20 (by show 5 ≤ 10; norm_num) rfl rfl

/-- C10.  In `compute_indicators_in_memory` (`indicators.py` lines 93-96
and 151-152) the two boolean fields are always `True` or `False`, never
Missing, for every emitted Snapshot; in particular for a one-bar series
(no previous volume to compare against) `today_volume_gt_yesterday` is
`False`, so `True` implies at least two bars — a consumer cannot tell
"condition is false" from "condition was not evaluable". -/
theorem C10_flags :
    ∀ (t : String) (b : Bar) (tl : List Bar),
      ((computeRow t (b :: tl)).map Row.today_volume_gt_yesterday).isSome = true
      ∧ ((computeRow t (b :: tl)).map Row.volume_spike_1p5x_avg20).isSome = true
      ∧ (tl = [] →
          (computeRow t (b :: tl)).map Row.today_volume_gt_yesterday = some false)
      ∧ ((computeRow t (b :: tl)).map Row.today_volume_gt_yesterday = some true →
          2 ≤ (b :: tl).length) := by
  intro t b tl
  refine ⟨rfl, rfl, ?_, ?_⟩
  · rintro rfl
    rfl
  · intro h
    cases tl with
    | nil =>
      have hfalse : (computeRow t [b]).map Row.today_volume_gt_yesterday = some false := rfl
      rw [hfalse] at h
      simp at h
    | cons c cs =>
      simp only [List.length_cons]
      omega

/-- C10 (witness): a one-bar series yields `today_volume_gt_yesterday =
False`; a two-bar series with rising volume yields `True`, and the theorem
then certifies it has at least two bars. -/
theorem C10_witness :
    (computeRow "A" [flatBar 0 3 5]).map Row.today_volume_gt_yesterday = some false
    ∧ 2 ≤ ([flatBar 0 3 5, flatBar 1 3 9] : List Bar).length := by
  refine ⟨(C10_flags "A" (flatBar 0 3 5) []).2.2.1 rfl,
    (C10_flags "A" (flatBar 0 3 5) [flatBar 1 3 9]).2.2.2 (by decide)⟩

end ClaimSection
